import Mathlib

set_option maxHeartbeats 1000000

/-!
Shallow embedding of the auto-comment feature in
src/vs/editor/contrib/comment/browser/autoCommentAction.ts.

Each regular expression of the source is embedded as a character-list
matcher.  The source patterns are built from literal keywords, the
classes w (word), s (whitespace) and single delimiter characters; these
classes are pairwise disjoint from the delimiters that follow them, so
greedy maximal-munch matching is equivalent to the backtracking search
of the source engine.  The two optional groups (visibility and static
or abstract modifiers) are handled by explicit enumeration of their
finitely many alternatives.
-/

/-- The whitespace class of the source's regex engine and of trim. -/
def jsSpaceChars : List Char :=
  [' ', '\t', '\n', '\x0b', '\x0c', '\r', '\u00A0', '\u1680',
   '\u2000', '\u2001', '\u2002', '\u2003', '\u2004', '\u2005', '\u2006',
   '\u2007', '\u2008', '\u2009', '\u200A', '\u2028', '\u2029', '\u202F',
   '\u205F', '\u3000', '\uFEFF']

def jsSpace (c : Char) : Bool := jsSpaceChars.contains c

/-- The word class: letters, digits, underscore. -/
def wordChar (c : Char) : Bool := c.isAlphanum || c == '_'

/-- The class used for type tokens in the C-family patterns. -/
def wordOrAngle (c : Char) : Bool := wordChar c || c == '<' || c == '>'

/-- Case-insensitive literal match; returns the rest on success. -/
def litCI : List Char → List Char → Option (List Char)
  | [], s => some s
  | _ :: _, [] => none
  | k :: ks, c :: cs => if c.toLower == k.toLower then litCI ks cs else none

def tokCI (kw : String) (s : List Char) : Option (List Char) := litCI kw.data s

/-- One or more characters of a class, maximal munch. -/
def many1 (p : Char → Bool) : List Char → Option (List Char)
  | [] => none
  | c :: t => if p c then some (t.dropWhile p) else none

/-- Zero or more whitespace characters, maximal munch. -/
def ws0 (s : List Char) : List Char := s.dropWhile jsSpace

/-- Exactly one character of a class. -/
def oneCh (p : Char → Bool) : List Char → Option (List Char)
  | [] => none
  | c :: t => if p c then some t else none

/-- One or more characters of a class, returning the consumed run. -/
def grab1 (p : Char → Bool) : List Char → Option (List Char × List Char)
  | [] => none
  | c :: t => if p c then some (c :: t.takeWhile p, t.dropWhile p) else none

def isLParen (c : Char) : Bool := c == '('

/-- Rests reachable through an optional group alternative. -/
def optChoices (o : Option (List Char)) : List (List Char) :=
  match o with
  | some r => [r]
  | none => []

/-- Rests after the optional visibility modifier group. -/
def visChoices (s : List Char) : List (List Char) :=
  optChoices (tokCI "public" s) ++ optChoices (tokCI "private" s) ++
  optChoices (tokCI "protected" s) ++ [s]

/-- Rests after the optional static-modifier group. -/
def staticChoices (s : List Char) : List (List Char) :=
  optChoices (do
    let r ← tokCI "static" s
    many1 jsSpace r) ++ [s]

/-- Rests after the optional abstract-modifier group. -/
def abstractChoices (s : List Char) : List (List Char) :=
  optChoices (do
    let r ← tokCI "abstract" s
    many1 jsSpace r) ++ [s]

/-- Alternative: a named function heading. -/
def fnNamed (s : List Char) : Bool :=
  (do
    let r ← tokCI "function" s
    let r ← many1 jsSpace r
    many1 wordChar r).isSome

/-- Alternative: a const arrow-assignment heading. -/
def fnArrowAssign (s : List Char) : Bool :=
  (do
    let r ← tokCI "const" s
    let r ← many1 jsSpace r
    let r ← many1 wordChar r
    let r ← oneCh (fun c => c == '=') (ws0 r)
    oneCh isLParen (ws0 r)).isSome

/-- Alternative: a bare name directly followed by an opening paren. -/
def fnBareCall (s : List Char) : Bool :=
  (do
    let r ← many1 wordChar s
    oneCh isLParen (ws0 r)).isSome

/-- Alternative: an async function heading. -/
def fnAsync (s : List Char) : Bool :=
  (do
    let r ← tokCI "async" s
    let r ← many1 jsSpace r
    tokCI "function" r).isSome

/-- Alternative: an object-method shorthand heading. -/
def fnMethodColon (s : List Char) : Bool :=
  (do
    let r ← many1 wordChar s
    let r ← oneCh (fun c => c == ':') (ws0 r)
    tokCI "function" (ws0 r)).isSome

/-- Alternative: an exported function heading. -/
def fnExport (s : List Char) : Bool :=
  (do
    let r ← tokCI "export" s
    let r ← many1 jsSpace r
    tokCI "function" r).isSome

/-- Alternative: a generator function heading. -/
def fnGenStar (s : List Char) : Bool :=
  (do
    let r ← tokCI "function" s
    oneCh (fun c => c == '*') (ws0 r)).isSome

/-- Tail of the C-family method pattern: type, name, opening paren. -/
def javaMethodTail (s : List Char) : Bool :=
  (do
    let r ← many1 wordOrAngle s
    let r ← many1 jsSpace r
    let r ← many1 wordChar r
    oneCh isLParen (ws0 r)).isSome

/-- The C-family method pattern with its optional modifier groups. -/
def javaMethod (s : List Char) : Bool :=
  (visChoices s).any fun r => (staticChoices (ws0 r)).any javaMethodTail

/-- The Python-style definition pattern. -/
def pyDef (s : List Char) : Bool :=
  (do
    let r ← tokCI "def" s
    let r ← many1 jsSpace r
    let r ← many1 wordChar r
    oneCh isLParen (ws0 r)).isSome

/-- isFunctionDeclaration of the source, lines 138-142. -/
def isFunctionDeclaration (line : String) : Bool :=
  fnNamed line.data || fnArrowAssign line.data || fnBareCall line.data ||
  fnAsync line.data || fnMethodColon line.data || fnExport line.data ||
  fnGenStar line.data || javaMethod line.data || pyDef line.data

def varKeywords : List String :=
  ["var", "let", "const", "int", "string", "boolean", "double", "float", "char"]

/-- Keyword-led declaration alternative of isVariableDeclaration. -/
def varKwDecl (s : List Char) : Bool :=
  (varKeywords.findSome? fun kw => do
    let r ← tokCI kw s
    let r ← many1 jsSpace r
    many1 wordChar r).isSome

/-- Tail of the typed-field pattern: type, name, equals or semicolon. -/
def javaFieldTail (s : List Char) : Bool :=
  (do
    let r ← many1 wordOrAngle s
    let r ← many1 jsSpace r
    let r ← many1 wordChar r
    oneCh (fun c => c == '=' || c == ';') (ws0 r)).isSome

/-- The typed-field pattern with its optional modifier groups. -/
def javaField (s : List Char) : Bool :=
  (visChoices s).any fun r => (staticChoices (ws0 r)).any javaFieldTail

/-- isVariableDeclaration of the source, lines 166-169. -/
def isVariableDeclaration (line : String) : Bool :=
  varKwDecl line.data || javaField line.data

def typeKeywords : List String := ["class", "interface", "struct", "enum"]

/-- Keyword-led alternative of isClassDeclaration. -/
def typeKwDecl (s : List Char) : Bool :=
  (typeKeywords.findSome? fun kw => do
    let r ← tokCI kw s
    let r ← many1 jsSpace r
    many1 wordChar r).isSome

/-- Modifier-led class alternative of isClassDeclaration. -/
def modClass (s : List Char) : Bool :=
  (visChoices s).any fun r =>
    (abstractChoices (ws0 r)).any fun r2 =>
      (do
        let r3 ← tokCI "class" r2
        let r3 ← many1 jsSpace r3
        many1 wordChar r3).isSome

/-- isClassDeclaration of the source, lines 177-180. -/
def isClassDeclaration (line : String) : Bool :=
  typeKwDecl line.data || modClass line.data

def ieKeywords : List String := ["import", "export", "from", "require"]

/-- isImportExport of the source, lines 187-189. -/
def isImportExport (line : String) : Bool :=
  (ieKeywords.findSome? fun kw => do
    let r ← tokCI kw line.data
    oneCh jsSpace r).isSome

def cfKeywords : List String :=
  ["if", "else", "for", "while", "do", "switch", "case", "try", "catch", "finally"]

/-- isControlFlow of the source, lines 191-193. -/
def isControlFlow (line : String) : Bool :=
  (cfKeywords.findSome? fun kw => do
    let r ← tokCI kw line.data
    oneCh (fun c => c == '(' || c == '\x7b') (ws0 r)).isSome

/-- A keyword followed by optional whitespace and one fixed delimiter. -/
def kwThen (kw : String) (d : Char) (line : String) : Bool :=
  (match tokCI kw line.data with
   | none => none
   | some r => oneCh (fun c => c == d) (ws0 r)).isSome

/-- getControlFlowType of the source, lines 195-202. -/
def getControlFlowType (line : String) : String :=
  if kwThen "if" '(' line then "Conditional"
  else if kwThen "for" '(' line then "Loop"
  else if kwThen "while" '(' line then "Loop"
  else if kwThen "switch" '(' line then "Switch"
  else if kwThen "try" '\x7b' line then "Error handling"
  else "Control flow"

/-- Leftmost-match search of an at-position matcher. -/
def scan (f : List Char → Option (List Char)) : List Char → Option (List Char)
  | [] => f []
  | c :: t =>
    match f (c :: t) with
    | some v => some v
    | none => scan f t

/-- At-position capture for the named-function pattern. -/
def exFnNamedAt (s : List Char) : Option (List Char) :=
  match tokCI "function" s with
  | none => none
  | some r =>
    match many1 jsSpace r with
    | none => none
    | some r2 =>
      match grab1 wordChar r2 with
      | none => none
      | some (cap, _) => some cap

/-- At-position capture for the const-assignment pattern. -/
def exFnConstAt (s : List Char) : Option (List Char) :=
  match tokCI "const" s with
  | none => none
  | some r =>
    match many1 jsSpace r with
    | none => none
    | some r2 =>
      match grab1 wordChar r2 with
      | none => none
      | some (cap, r3) =>
        match oneCh (fun c => c == '=') (ws0 r3) with
        | none => none
        | some _ => some cap

/-- At-position capture for the bare-call pattern. -/
def exFnCallAt (s : List Char) : Option (List Char) :=
  match grab1 wordChar s with
  | none => none
  | some (cap, r) =>
    match oneCh isLParen (ws0 r) with
    | none => none
    | some _ => some cap

/-- At-position capture for the typed-method pattern. -/
def exFnMethodAt (s : List Char) : Option (List Char) :=
  match many1 wordOrAngle s with
  | none => none
  | some r =>
    match many1 jsSpace r with
    | none => none
    | some r2 =>
      match grab1 wordChar r2 with
      | none => none
      | some (cap, r3) =>
        match oneCh isLParen (ws0 r3) with
        | none => none
        | some _ => some cap

/-- At-position capture for the Python definition pattern. -/
def exFnDefAt (s : List Char) : Option (List Char) :=
  match tokCI "def" s with
  | none => none
  | some r =>
    match many1 jsSpace r with
    | none => none
    | some r2 =>
      match grab1 wordChar r2 with
      | none => none
      | some (cap, r3) =>
        match oneCh isLParen (ws0 r3) with
        | none => none
        | some _ => some cap

/-- extractFunctionName of the source, lines 144-164. -/
def extractFunctionName (line : String) : Option String :=
  ([exFnNamedAt, exFnConstAt, exFnCallAt, exFnMethodAt, exFnDefAt].findSome?
    fun f => scan f line.data).map fun cap => String.mk cap

/-- At-position capture for the keyword-led variable pattern. -/
def exVarKwAt (s : List Char) : Option (List Char) :=
  varKeywords.findSome? fun kw =>
    match tokCI kw s with
    | none => none
    | some r =>
      match many1 jsSpace r with
      | none => none
      | some r2 =>
        match grab1 wordChar r2 with
        | none => none
        | some (cap, _) => some cap

/-- At-position capture for the typed-field variable pattern. -/
def exVarFieldAt (s : List Char) : Option (List Char) :=
  match many1 wordOrAngle s with
  | none => none
  | some r =>
    match many1 jsSpace r with
    | none => none
    | some r2 =>
      match grab1 wordChar r2 with
      | none => none
      | some (cap, r3) =>
        match oneCh (fun c => c == '=' || c == ';') (ws0 r3) with
        | none => none
        | some _ => some cap

/-- extractVariableName of the source, lines 171-175. -/
def extractVariableName (line : String) : Option String :=
  ([exVarKwAt, exVarFieldAt].findSome? fun f => scan f line.data).map
    fun cap => String.mk cap

/-- At-position capture for the type-declaration pattern. -/
def exClassAt (s : List Char) : Option (List Char) :=
  typeKeywords.findSome? fun kw =>
    match tokCI kw s with
    | none => none
    | some r =>
      match many1 jsSpace r with
      | none => none
      | some r2 =>
        match grab1 wordChar r2 with
        | none => none
        | some (cap, _) => some cap

/-- extractClassName of the source, lines 182-185. -/
def extractClassName (line : String) : Option String :=
  (scan exClassAt line.data).map fun cap => String.mk cap

/-- The trim applied to lines before classification. -/
def jsTrim (s : String) : String :=
  String.mk (((s.data.dropWhile jsSpace).reverse.dropWhile jsSpace).reverse)

/-- The category a line can be classified as; spec section 3. -/
inductive Category where
  | Function
  | Variable
  | TypeDeclaration
  | ImportExport
  | ControlFlow
  | Generic
deriving DecidableEq, Repr

/-- The result of classifying one trimmed line; spec section 3. -/
structure ClassificationResult where
  category : Category
  identifier : Option String
  controlFlowKind : Option String
deriving DecidableEq, Repr

/-- The ordered rule cascade of generateCommentForCurrentContext,
source lines 57-83, read as the classifier of spec section 4.1. -/
def classify (trimmedLine : String) : ClassificationResult :=
  if isFunctionDeclaration trimmedLine then
    { category := Category.Function,
      identifier := extractFunctionName trimmedLine,
      controlFlowKind := none }
  else if isVariableDeclaration trimmedLine then
    { category := Category.Variable,
      identifier := extractVariableName trimmedLine,
      controlFlowKind := none }
  else if isClassDeclaration trimmedLine then
    { category := Category.TypeDeclaration,
      identifier := extractClassName trimmedLine,
      controlFlowKind := none }
  else if isImportExport trimmedLine then
    { category := Category.ImportExport,
      identifier := none,
      controlFlowKind := none }
  else if isControlFlow trimmedLine then
    { category := Category.ControlFlow,
      identifier := none,
      controlFlowKind := some (getControlFlowType trimmedLine) }
  else
    { category := Category.Generic,
      identifier := none,
      controlFlowKind := none }

/-- The comment text generateCommentForCurrentContext builds for the
line under the caret, source lines 51-86. -/
def generateCommentForCurrentContext (line : String) : String :=
  let t := jsTrim line
  if isFunctionDeclaration t then
    "// " ++ (match extractFunctionName t with
              | some n => "Function: " ++ n
              | none => "Function definition")
  else if isVariableDeclaration t then
    "// " ++ (match extractVariableName t with
              | some n => "Variable: " ++ n
              | none => "Variable declaration")
  else if isClassDeclaration t then
    "// " ++ (match extractClassName t with
              | some n => "Class: " ++ n
              | none => "Class definition")
  else if isImportExport t then "// Module import/export"
  else if isControlFlow t then "// " ++ getControlFlowType t ++ " statement"
  else "// TODO: Add description"

/-- Split on every newline character, keeping empty pieces. -/
def splitOnNl : List Char → List (List Char)
  | [] => [[]]
  | c :: t =>
    match splitOnNl t with
    | [] => [[]]
    | l :: ls => if c == '\n' then [] :: l :: ls else (c :: l) :: ls

def splitLines (s : String) : List String :=
  (splitOnNl s.data).map fun l => String.mk l

/-- The function tally of the aggregator, source line 104. -/
def functionCount (lines : List String) : Nat :=
  (lines.filter fun l => isFunctionDeclaration (jsTrim l)).length

/-- The variable tally of the aggregator, source line 105. -/
def variableCount (lines : List String) : Nat :=
  (lines.filter fun l => isVariableDeclaration (jsTrim l)).length

/-- The comment generateCommentForSelection builds from the split
lines of the selection, source lines 92-114. -/
def selectionCommentLines (lines : List String) : String :=
  if lines.length == 1 then
    let t := jsTrim (lines.headD "")
    if isFunctionDeclaration t then
      "// " ++ (match extractFunctionName t with
                | some n => "Function: " ++ n
                | none => "Function definition")
    else "// Selected code block"
  else
    let fc := functionCount lines
    let vc := variableCount lines
    if fc > 0 then
      "// Code block with " ++ toString fc ++ " function" ++
        (if fc > 1 then "s" else "")
    else if vc > 0 then
      "// Code block with " ++ toString vc ++ " variable" ++
        (if vc > 1 then "s" else "")
    else
      "// Code block (" ++ toString lines.length ++ " lines)"

/-- generateCommentForSelection of the source, lines 88-117. -/
def generateCommentForSelection (selectedText : String) : String :=
  selectionCommentLines (splitLines selectedText)

/-- The edit and caret update returned to the host; spec section 3. -/
structure InsertionPlan where
  insertLine : Nat
  insertColumn : Nat
  text : String
  newCaretLine : Nat
  newCaretColumn : Nat
deriving DecidableEq, Repr

/-- The indentation computation of insertComment, source line 121. -/
def leadingIndentation (lineContent : String) : String :=
  String.mk (lineContent.data.take
    (lineContent.data.length - (lineContent.data.dropWhile jsSpace).length))

/-- insertComment of the source, lines 119-135, as the pure plan the
host applies. -/
def insertComment (lineNumber : Nat) (lineContent : String)
    (comment : String) : InsertionPlan :=
  { insertLine := lineNumber
    insertColumn := 1
    text := leadingIndentation lineContent ++ comment ++ "\n"
    newCaretLine := lineNumber
    newCaretColumn := comment.length + (leadingIndentation lineContent).length + 1 }

theorem strMk_data (s : String) : String.mk s.data = s := by
  cases s
  rfl

theorem take_sub_dropWhile (p : Char → Bool) (l : List Char) :
    l.take (l.length - (l.dropWhile p).length) = l.takeWhile p := by
  have key := List.takeWhile_append_dropWhile (p := p) (l := l)
  set a := l.takeWhile p with ha
  set b := l.dropWhile p with hb
  rw [← key, List.length_append, Nat.add_sub_cancel, List.take_left]

/-- C1: over the three-line span of the repository's own selection test,
the aggregator counts two function lines (the bare call pattern matches
an if-heading and a call statement), so the synthesized comment is the
function form and not the three-line code-block form the test asserts. -/
theorem selectionIfBlockYieldsTwoFunctions :
    generateCommentForSelection "if (condition) \x7b\n    doSomething();\n\x7d" =
      "// Code block with 2 functions" ∧
    functionCount (splitLines "if (condition) \x7b\n    doSomething();\n\x7d") = 2 ∧
    variableCount (splitLines "if (condition) \x7b\n    doSomething();\n\x7d") = 0 ∧
    generateCommentForSelection "if (condition) \x7b\n    doSomething();\n\x7d" ≠
      "// Code block (3 lines)" := by
  exact ⟨by decide, by decide, by decide, by decide⟩

/-- C2: the single line assigning a string literal to a const name is
classified Variable with identifier userName; the arrow-assignment
function alternative and the whole function rule reject it. -/
theorem constStringAssignmentIsVariable :
    classify "const userName = \"John Doe\";" =
      { category := Category.Variable, identifier := some "userName",
        controlFlowKind := none } ∧
    fnArrowAssign "const userName = \"John Doe\";".data = false ∧
    isFunctionDeclaration "const userName = \"John Doe\";" = false := by
  exact ⟨by decide, by decide, by decide⟩

/-- C5: for every target line and comment body, the plan inserts the
line's leading whitespace, the comment and a newline at column one of
the target line, and places the caret on the inserted line right after
the comment; instantiated on a four-space indented line. -/
theorem insertionPlanContract :
    (∀ (n : Nat) (lineContent body : String),
      (insertComment n lineContent ("// " ++ body)).text =
        leadingIndentation lineContent ++ ("// " ++ body) ++ "\n" ∧
      (insertComment n lineContent ("// " ++ body)).insertLine = n ∧
      (insertComment n lineContent ("// " ++ body)).insertColumn = 1 ∧
      (insertComment n lineContent ("// " ++ body)).newCaretLine = n ∧
      (insertComment n lineContent ("// " ++ body)).newCaretColumn =
        (leadingIndentation lineContent).length + ("// " ++ body).length + 1) ∧
    (insertComment 5 "    const x = 1;" ("// " ++ "Variable: x")).text =
      "    // Variable: x\n" ∧
    (insertComment 5 "    const x = 1;" ("// " ++ "Variable: x")).newCaretColumn =
      4 + ("// Variable: x").length + 1 := by
  refine ⟨fun n lineContent body => ⟨rfl, rfl, rfl, rfl, ?_⟩, by decide, by decide⟩
  simp only [insertComment]
  omega

/-- C7 counterexample: a blank line made of three spaces has the whole
line as its leading indentation, not the empty string. -/
theorem blankLineIndentationNotEmpty :
    leadingIndentation "   " = "   " ∧
    leadingIndentation "   " ≠ "" ∧
    "   ".data.all jsSpace = true := by
  exact ⟨by decide, by decide, by decide⟩

/-- C7 amended: the leading indentation is the maximal whitespace
prefix of the raw line; it is the whole line when the line is blank
(all whitespace) and empty when the line starts with a non-whitespace
character. -/
theorem leadingIndentationWhitespacePrefix (line : String) :
    leadingIndentation line = String.mk (line.data.takeWhile jsSpace) ∧
    (line.data.all jsSpace = true → leadingIndentation line = line) ∧
    (∀ c t, line.data = c :: t → jsSpace c = false →
      leadingIndentation line = "") := by
  have h1 : leadingIndentation line = String.mk (line.data.takeWhile jsSpace) := by
    unfold leadingIndentation
    rw [take_sub_dropWhile]
  refine ⟨h1, ?_, ?_⟩
  · intro hall
    have h2 : line.data.takeWhile jsSpace = line.data :=
      List.takeWhile_eq_self_iff.mpr (by simpa using hall)
    rw [h1, h2, strMk_data]
  · intro c t hct hc
    rw [h1, hct]
    simp [List.takeWhile_cons, hc]

/-- C7 witness: a line with no leading whitespace gets empty
indentation, and the whitespace prefix shape holds on a concrete line. -/
theorem leadingIndentationWitness :
    leadingIndentation "x y" = "" ∧ leadingIndentation "  x" = "  " := by
  have h1 := leadingIndentationWhitespacePrefix "x y"
  have h2 := leadingIndentationWhitespacePrefix "  x"
  exact ⟨h1.2.2 'x' [' ', 'y'] (by decide) (by decide), h2.1.trans (by decide)⟩

theorem splitOnNl_of_not_mem (l : List Char) (h : ¬ '\n' ∈ l) :
    splitOnNl l = [l] := by
  induction l with
  | nil => rfl
  | cons c t ih =>
    simp only [List.mem_cons, not_or] at h
    obtain ⟨h1, h2⟩ := h
    simp only [splitOnNl, ih h2]
    simp [beq_eq_false_iff_ne.mpr (fun hh => h1 hh.symm)]

/-- C8: a selection whose text holds no line break goes through the
single-line policy: the function comment when the trimmed text is a
function declaration, and the literal selected-code-block comment in
every other case. -/
theorem singleLineSelectionDelegation (s : String) (h : ¬ '\n' ∈ s.data) :
    generateCommentForSelection s =
      if isFunctionDeclaration (jsTrim s) then
        "// " ++ (match extractFunctionName (jsTrim s) with
                  | some n => "Function: " ++ n
                  | none => "Function definition")
      else "// Selected code block" := by
  unfold generateCommentForSelection splitLines
  rw [splitOnNl_of_not_mem s.data h]
  simp only [List.map_cons, List.map_nil, strMk_data]
  simp [selectionCommentLines]

/-- C8 witness: a one-line selection of a variable declaration gets the
selected-code-block comment, not a variable comment. -/
theorem singleLineSelectionDelegationWitness :
    generateCommentForSelection "const x = 1;" = "// Selected code block" := by
  have h := singleLineSelectionDelegation "const x = 1;" (by decide)
  exact h.trans (by decide)

/-- C3: whenever a multi-line selection has at least one function line,
the comment reports the function count, whatever the variable count,
with the plural s exactly when the count exceeds one. -/
theorem multilineFunctionCountWins (s : String)
    (h1 : 1 < (splitLines s).length)
    (h2 : 0 < functionCount (splitLines s)) :
    generateCommentForSelection s =
      "// Code block with " ++ toString (functionCount (splitLines s)) ++
        " function" ++ (if functionCount (splitLines s) > 1 then "s" else "") := by
  unfold generateCommentForSelection
  have hne : ((splitLines s).length == 1) = false :=
    beq_eq_false_iff_ne.mpr (by omega)
  simp only [selectionCommentLines, hne, Bool.false_eq_true, if_false]
  rw [if_pos h2]

/-- C3 witness: a span of two function lines and one variable line is
reported as two functions. -/
theorem multilineFunctionCountWinsWitness :
    generateCommentForSelection
        "function foo() \x7b\nfunction bar() \x7b\nconst x = 1;" =
      "// Code block with 2 functions" ∧
    variableCount (splitLines
        "function foo() \x7b\nfunction bar() \x7b\nconst x = 1;") = 1 := by
  have h := multilineFunctionCountWins
    "function foo() \x7b\nfunction bar() \x7b\nconst x = 1;" (by decide) (by decide)
  exact ⟨h.trans (by decide), by decide⟩

/-- C4: classification is total: it always lands in one of the six
categories, and when no rule matches, the result is the Generic
category and the synthesized comment is the TODO text. -/
theorem classifyTotalGenericFallback (line : String)
    (h1 : isFunctionDeclaration (jsTrim line) = false)
    (h2 : isVariableDeclaration (jsTrim line) = false)
    (h3 : isClassDeclaration (jsTrim line) = false)
    (h4 : isImportExport (jsTrim line) = false)
    (h5 : isControlFlow (jsTrim line) = false) :
    classify (jsTrim line) =
      { category := Category.Generic, identifier := none,
        controlFlowKind := none } ∧
    generateCommentForCurrentContext line = "// TODO: Add description" ∧
    (∀ s : String, (classify s).category ∈
      [Category.Function, Category.Variable, Category.TypeDeclaration,
       Category.ImportExport, Category.ControlFlow, Category.Generic]) := by
  refine ⟨?_, ?_, ?_⟩
  · simp [classify, h1, h2, h3, h4, h5]
  · simp [generateCommentForCurrentContext, h1, h2, h3, h4, h5]
  · intro s
    cases hcat : (classify s).category <;> simp

/-- C4 witness: a line of plus signs matches no rule, is classified
Generic, and gets the TODO comment. -/
theorem classifyTotalGenericFallbackWitness :
    classify (jsTrim "+++") =
      { category := Category.Generic, identifier := none,
        controlFlowKind := none } ∧
    generateCommentForCurrentContext "+++" = "// TODO: Add description" := by
  have h := classifyTotalGenericFallback "+++"
    (by decide) (by decide) (by decide) (by decide) (by decide)
  exact ⟨h.1, h.2.1⟩

/-- C9: the aggregation tally only counts lines, so permuting the lines
of a multi-line selection changes neither the tallies nor the comment. -/
theorem aggregationPermutationInvariant (l1 l2 : List String)
    (hp : l1.Perm l2) (hl : 1 < l1.length) :
    functionCount l1 = functionCount l2 ∧
    variableCount l1 = variableCount l2 ∧
    l1.length = l2.length ∧
    selectionCommentLines l1 = selectionCommentLines l2 := by
  have hf : functionCount l1 = functionCount l2 := by
    unfold functionCount
    exact (hp.filter _).length_eq
  have hv : variableCount l1 = variableCount l2 := by
    unfold variableCount
    exact (hp.filter _).length_eq
  have hlen : l1.length = l2.length := hp.length_eq
  refine ⟨hf, hv, hlen, ?_⟩
  have hne1 : (l1.length == 1) = false := beq_eq_false_iff_ne.mpr (by omega)
  have hne2 : (l2.length == 1) = false := beq_eq_false_iff_ne.mpr (by omega)
  simp only [selectionCommentLines, hne1, hne2, Bool.false_eq_true, if_false]
  rw [hf, hv, hlen]

/-- C9 witness: swapping a function line and a variable line leaves the
synthesized multi-line comment unchanged. -/
theorem aggregationPermutationWitness :
    selectionCommentLines ["function foo() \x7b", "const x = 1;"] =
      selectionCommentLines ["const x = 1;", "function foo() \x7b"] := by
  exact (aggregationPermutationInvariant _ _ (by decide) (by decide)).2.2.2

theorem litCI_head (k : Char) (ks s r : List Char)
    (h : litCI (k :: ks) s = some r) :
    ∃ c t, s = c :: t ∧ c.toLower = k.toLower := by
  cases s with
  | nil => simp [litCI] at h
  | cons c t =>
    refine ⟨c, t, rfl, ?_⟩
    by_cases hc : c.toLower == k.toLower
    · exact beq_iff_eq.mp hc
    · simp [litCI, hc] at h

theorem kwThen_head (kw : String) (d : Char) (line : String) (k : Char)
    (ks : List Char) (hkw : kw.data = k :: ks) (h : kwThen kw d line = true) :
    ∃ c t, line.data = c :: t ∧ c.toLower = k.toLower := by
  unfold kwThen at h
  split at h
  · simp at h
  · rename_i r hr
    rw [tokCI, hkw] at hr
    exact litCI_head k ks _ r hr

theorem kwThen_excl (kw1 kw2 : String) (d1 d2 : Char) (line : String)
    (k1 k2 : Char) (ks1 ks2 : List Char)
    (h1 : kw1.data = k1 :: ks1) (h2 : kw2.data = k2 :: ks2)
    (hne : k1.toLower ≠ k2.toLower)
    (h : kwThen kw1 d1 line = true) : kwThen kw2 d2 line = false := by
  cases hq : kwThen kw2 d2 line with
  | false => rfl
  | true =>
    exfalso
    obtain ⟨c, t, hct, hc1⟩ := kwThen_head kw1 d1 line k1 ks1 h1 h
    obtain ⟨c2, t2, hct2, hc2⟩ := kwThen_head kw2 d2 line k2 ks2 h2 hq
    rw [hct] at hct2
    injection hct2 with hcc _
    apply hne
    rw [← hc1, hcc, hc2]

/-- C6 counterexample: the line of an if keyword followed by an opening
brace is classified ControlFlow, yet its kind is the generic one and
not Conditional, because the kind lookup demands an opening paren after
the if keyword. -/
theorem ifBraceControlFlowKindCounterexample :
    (classify "if \x7b").category = Category.ControlFlow ∧
    (classify "if \x7b").controlFlowKind = some "Control flow" ∧
    ("Control flow" : String) ≠ "Conditional" := by
  exact ⟨by decide, by decide, by decide⟩

/-- C6 amended: for every line classified ControlFlow, the kind is a
fixed lookup on the leading keyword together with the delimiter that
follows it: if with a paren gives Conditional, for or while with a
paren give Loop, switch with a paren gives Switch, try with a brace
gives Error handling, and every other control-flow line gets the
generic kind; the synthesized comment is the kind followed by the word
statement. -/
theorem controlFlowKindRequiresDelimiter (line : String)
    (h : (classify (jsTrim line)).category = Category.ControlFlow) :
    (classify (jsTrim line)).controlFlowKind =
      some (getControlFlowType (jsTrim line)) ∧
    (kwThen "if" '(' (jsTrim line) = true →
      getControlFlowType (jsTrim line) = "Conditional") ∧
    (kwThen "for" '(' (jsTrim line) = true →
      getControlFlowType (jsTrim line) = "Loop") ∧
    (kwThen "while" '(' (jsTrim line) = true →
      getControlFlowType (jsTrim line) = "Loop") ∧
    (kwThen "switch" '(' (jsTrim line) = true →
      getControlFlowType (jsTrim line) = "Switch") ∧
    (kwThen "try" '\x7b' (jsTrim line) = true →
      getControlFlowType (jsTrim line) = "Error handling") ∧
    (kwThen "if" '(' (jsTrim line) = false →
      kwThen "for" '(' (jsTrim line) = false →
      kwThen "while" '(' (jsTrim line) = false →
      kwThen "switch" '(' (jsTrim line) = false →
      kwThen "try" '\x7b' (jsTrim line) = false →
      getControlFlowType (jsTrim line) = "Control flow") ∧
    generateCommentForCurrentContext line =
      "// " ++ getControlFlowType (jsTrim line) ++ " statement" := by
  have hfn : isFunctionDeclaration (jsTrim line) = false := by
    cases hb : isFunctionDeclaration (jsTrim line)
    · rfl
    · simp [classify, hb] at h
  have hvar : isVariableDeclaration (jsTrim line) = false := by
    cases hb : isVariableDeclaration (jsTrim line)
    · rfl
    · simp [classify, hfn, hb] at h
  have hcls : isClassDeclaration (jsTrim line) = false := by
    cases hb : isClassDeclaration (jsTrim line)
    · rfl
    · simp [classify, hfn, hvar, hb] at h
  have himp : isImportExport (jsTrim line) = false := by
    cases hb : isImportExport (jsTrim line)
    · rfl
    · simp [classify, hfn, hvar, hcls, hb] at h
  have hcf : isControlFlow (jsTrim line) = true := by
    cases hb : isControlFlow (jsTrim line)
    · simp [classify, hfn, hvar, hcls, himp, hb] at h
    · rfl
  refine ⟨?_, ?_, ?_, ?_, ?_, ?_, ?_, ?_⟩
  · simp [classify, hfn, hvar, hcls, himp, hcf]
  · intro hx
    simp [getControlFlowType, hx]
  · intro hx
    have e1 : kwThen "if" '(' (jsTrim line) = false :=
      kwThen_excl "for" "if" '(' '(' (jsTrim line) 'f' 'i' ['o', 'r'] ['f']
        (by decide) (by decide) (by decide) hx
    simp [getControlFlowType, e1, hx]
  · intro hx
    have e1 : kwThen "if" '(' (jsTrim line) = false :=
      kwThen_excl "while" "if" '(' '(' (jsTrim line) 'w' 'i'
        ['h', 'i', 'l', 'e'] ['f'] (by decide) (by decide) (by decide) hx
    have e2 : kwThen "for" '(' (jsTrim line) = false :=
      kwThen_excl "while" "for" '(' '(' (jsTrim line) 'w' 'f'
        ['h', 'i', 'l', 'e'] ['o', 'r'] (by decide) (by decide) (by decide) hx
    simp [getControlFlowType, e1, e2, hx]
  · intro hx
    have e1 : kwThen "if" '(' (jsTrim line) = false :=
      kwThen_excl "switch" "if" '(' '(' (jsTrim line) 's' 'i'
        ['w', 'i', 't', 'c', 'h'] ['f'] (by decide) (by decide) (by decide) hx
    have e2 : kwThen "for" '(' (jsTrim line) = false :=
      kwThen_excl "switch" "for" '(' '(' (jsTrim line) 's' 'f'
        ['w', 'i', 't', 'c', 'h'] ['o', 'r'] (by decide) (by decide) (by decide) hx
    have e3 : kwThen "while" '(' (jsTrim line) = false :=
      kwThen_excl "switch" "while" '(' '(' (jsTrim line) 's' 'w'
        ['w', 'i', 't', 'c', 'h'] ['h', 'i', 'l', 'e']
        (by decide) (by decide) (by decide) hx
    simp [getControlFlowType, e1, e2, e3, hx]
  · intro hx
    have e1 : kwThen "if" '(' (jsTrim line) = false :=
      kwThen_excl "try" "if" '\x7b' '(' (jsTrim line) 't' 'i'
        ['r', 'y'] ['f'] (by decide) (by decide) (by decide) hx
    have e2 : kwThen "for" '(' (jsTrim line) = false :=
      kwThen_excl "try" "for" '\x7b' '(' (jsTrim line) 't' 'f'
        ['r', 'y'] ['o', 'r'] (by decide) (by decide) (by decide) hx
    have e3 : kwThen "while" '(' (jsTrim line) = false :=
      kwThen_excl "try" "while" '\x7b' '(' (jsTrim line) 't' 'w'
        ['r', 'y'] ['h', 'i', 'l', 'e'] (by decide) (by decide) (by decide) hx
    have e4 : kwThen "switch" '(' (jsTrim line) = false :=
      kwThen_excl "try" "switch" '\x7b' '(' (jsTrim line) 't' 's'
        ['r', 'y'] ['w', 'i', 't', 'c', 'h'] (by decide) (by decide) (by decide) hx
    simp [getControlFlowType, e1, e2, e3, e4, hx]
  · intro f1 f2 f3 f4 f5
    simp [getControlFlowType, f1, f2, f3, f4, f5]
  · simp [generateCommentForCurrentContext, hfn, hvar, hcls, himp, hcf]

/-- C6 witness: a try keyword followed by a brace is classified
ControlFlow and gets the Error handling statement comment. -/
theorem controlFlowKindWitness :
    (classify (jsTrim "try \x7b")).controlFlowKind =
      some (getControlFlowType (jsTrim "try \x7b")) ∧
    generateCommentForCurrentContext "try \x7b" =
      "// Error handling statement" := by
  have h := controlFlowKindRequiresDelimiter "try \x7b" (by decide)
  exact ⟨h.1, h.2.2.2.2.2.2.2.trans (by decide)⟩

theorem grab1_sound (p : Char → Bool) (s cap r : List Char)
    (h : grab1 p s = some (cap, r)) : cap ≠ [] ∧ cap.all p = true := by
  cases s with
  | nil => simp [grab1] at h
  | cons c t =>
    simp only [grab1] at h
    by_cases hc : p c
    · rw [if_pos hc] at h
      injection h with h2
      injection h2 with ha hb
      subst ha
      exact ⟨by simp, by simp [hc, List.all_takeWhile]⟩
    · rw [if_neg hc] at h
      exact Option.noConfusion h

theorem scan_exists (f : List Char → Option (List Char)) (s cap : List Char)
    (h : scan f s = some cap) : ∃ s2, f s2 = some cap := by
  induction s with
  | nil => exact ⟨[], h⟩
  | cons c t ih =>
    simp only [scan] at h
    split at h
    · rename_i v hf
      exact ⟨c :: t, hf.trans h⟩
    · exact ih h

theorem exFnNamedAt_sound (s cap : List Char) (h : exFnNamedAt s = some cap) :
    cap ≠ [] ∧ cap.all wordChar = true := by
  unfold exFnNamedAt at h
  split at h
  · exact Option.noConfusion h
  · split at h
    · exact Option.noConfusion h
    · split at h
      · exact Option.noConfusion h
      · rename_i hg
        injection h with h2
        subst h2
        exact grab1_sound _ _ _ _ hg

theorem exFnConstAt_sound (s cap : List Char) (h : exFnConstAt s = some cap) :
    cap ≠ [] ∧ cap.all wordChar = true := by
  unfold exFnConstAt at h
  split at h
  · exact Option.noConfusion h
  · split at h
    · exact Option.noConfusion h
    · split at h
      · exact Option.noConfusion h
      · rename_i hg
        split at h
        · exact Option.noConfusion h
        · injection h with h2
          subst h2
          exact grab1_sound _ _ _ _ hg

theorem exFnCallAt_sound (s cap : List Char) (h : exFnCallAt s = some cap) :
    cap ≠ [] ∧ cap.all wordChar = true := by
  unfold exFnCallAt at h
  split at h
  · exact Option.noConfusion h
  · rename_i hg
    split at h
    · exact Option.noConfusion h
    · injection h with h2
      subst h2
      exact grab1_sound _ _ _ _ hg

theorem exFnMethodAt_sound (s cap : List Char) (h : exFnMethodAt s = some cap) :
    cap ≠ [] ∧ cap.all wordChar = true := by
  unfold exFnMethodAt at h
  split at h
  · exact Option.noConfusion h
  · split at h
    · exact Option.noConfusion h
    · split at h
      · exact Option.noConfusion h
      · rename_i hg
        split at h
        · exact Option.noConfusion h
        · injection h with h2
          subst h2
          exact grab1_sound _ _ _ _ hg

theorem exFnDefAt_sound (s cap : List Char) (h : exFnDefAt s = some cap) :
    cap ≠ [] ∧ cap.all wordChar = true := by
  unfold exFnDefAt at h
  split at h
  · exact Option.noConfusion h
  · split at h
    · exact Option.noConfusion h
    · split at h
      · exact Option.noConfusion h
      · rename_i hg
        split at h
        · exact Option.noConfusion h
        · injection h with h2
          subst h2
          exact grab1_sound _ _ _ _ hg

theorem exVarKwAt_sound (s cap : List Char) (h : exVarKwAt s = some cap) :
    cap ≠ [] ∧ cap.all wordChar = true := by
  unfold exVarKwAt at h
  obtain ⟨kw, hmem, hf⟩ := List.exists_of_findSome?_eq_some h
  split at hf
  · exact Option.noConfusion hf
  · split at hf
    · exact Option.noConfusion hf
    · split at hf
      · exact Option.noConfusion hf
      · rename_i hg
        injection hf with h2
        subst h2
        exact grab1_sound _ _ _ _ hg

theorem exVarFieldAt_sound (s cap : List Char) (h : exVarFieldAt s = some cap) :
    cap ≠ [] ∧ cap.all wordChar = true := by
  unfold exVarFieldAt at h
  split at h
  · exact Option.noConfusion h
  · split at h
    · exact Option.noConfusion h
    · split at h
      · exact Option.noConfusion h
      · rename_i hg
        split at h
        · exact Option.noConfusion h
        · injection h with h2
          subst h2
          exact grab1_sound _ _ _ _ hg

theorem exClassAt_sound (s cap : List Char) (h : exClassAt s = some cap) :
    cap ≠ [] ∧ cap.all wordChar = true := by
  unfold exClassAt at h
  obtain ⟨kw, hmem, hf⟩ := List.exists_of_findSome?_eq_some h
  split at hf
  · exact Option.noConfusion hf
  · split at hf
    · exact Option.noConfusion hf
    · split at hf
      · exact Option.noConfusion hf
      · rename_i hg
        injection hf with h2
        subst h2
        exact grab1_sound _ _ _ _ hg

theorem mkCap_prop (cap : List Char) (name : String)
    (hcap : String.mk cap = name) (hs : cap ≠ [] ∧ cap.all wordChar = true) :
    name ≠ "" ∧ name.data.all wordChar = true := by
  rw [← hcap]
  refine ⟨?_, by simpa using hs.2⟩
  intro he
  apply hs.1
  have hd : (String.mk cap).data = ("" : String).data := by rw [he]
  simpa using hd

/-- C10: every identifier extracted for a function, variable or type
classification is a nonempty single token of word characters, because
each capture is a maximal nonempty run of the word class. -/
theorem extractedIdentifiersAreWordTokens (line : String) (name : String)
    (h : extractFunctionName line = some name ∨
         extractVariableName line = some name ∨
         extractClassName line = some name) :
    name ≠ "" ∧ name.data.all wordChar = true := by
  rcases h with h | h | h
  · unfold extractFunctionName at h
    rw [Option.map_eq_some'] at h
    obtain ⟨cap, hfind, hcap⟩ := h
    obtain ⟨f, hmem, hscan⟩ := List.exists_of_findSome?_eq_some hfind
    obtain ⟨s2, hs2⟩ := scan_exists _ _ _ hscan
    refine mkCap_prop cap name hcap ?_
    simp only [List.mem_cons, List.not_mem_nil, or_false] at hmem
    rcases hmem with rfl | rfl | rfl | rfl | rfl
    · exact exFnNamedAt_sound _ _ hs2
    · exact exFnConstAt_sound _ _ hs2
    · exact exFnCallAt_sound _ _ hs2
    · exact exFnMethodAt_sound _ _ hs2
    · exact exFnDefAt_sound _ _ hs2
  · unfold extractVariableName at h
    rw [Option.map_eq_some'] at h
    obtain ⟨cap, hfind, hcap⟩ := h
    obtain ⟨f, hmem, hscan⟩ := List.exists_of_findSome?_eq_some hfind
    obtain ⟨s2, hs2⟩ := scan_exists _ _ _ hscan
    refine mkCap_prop cap name hcap ?_
    simp only [List.mem_cons, List.not_mem_nil, or_false] at hmem
    rcases hmem with rfl | rfl
    · exact exVarKwAt_sound _ _ hs2
    · exact exVarFieldAt_sound _ _ hs2
  · unfold extractClassName at h
    rw [Option.map_eq_some'] at h
    obtain ⟨cap, hscan, hcap⟩ := h
    obtain ⟨s2, hs2⟩ := scan_exists _ _ _ hscan
    exact mkCap_prop cap name hcap (exClassAt_sound _ _ hs2)

/-- C10 witness: the identifier extracted from a named function heading
is a nonempty word token. -/
theorem extractedIdentifierWitness :
    ("calculateSum" : String) ≠ "" ∧
    ("calculateSum" : String).data.all wordChar = true :=
  extractedIdentifiersAreWordTokens "function calculateSum(a, b) \x7b"
    "calculateSum" (Or.inl (by decide))
